import Mathlib

/-!
Verification of the Hyperware skeleton app (src/skeleton-app/src/lib.rs).

The app is a single stateful process with state `AppState { counter: u32,
messages: Vec<String> }` and five handlers: `initialize`, `get_status`,
`increment_counter`, `get_messages`, `handle_remote_message`, `send_to_node`.

Modelling conventions:
- `u32` is `Nat` with arithmetic reduced modulo `2 ^ 32` (the release-build
  wrapping semantics of `self.counter += amount`).
- `serde_json::from_str::<u32>` is modelled by `parseJsonU32`: the body, with
  surrounding JSON whitespace removed, must be a non-empty digit string with
  no leading zero whose value fits in 32 bits.
- `serde_json::to_string` on a `Vec<String>` is modelled by
  `serializeStringList`, using the exact escaping rules of serde_json
  (quote, backslash, and control characters below 0x20, the latter with the
  two-character shortcuts for backspace, tab, newline, form feed and
  carriage return and `\u00XX` otherwise).
- `serde_json::from_str::<SendRequest>` is modelled by `parseSendRequest`,
  a parser for compact JSON objects whose values are strings; `serde`
  diagnostics are abbreviated to their leading phrase.
- The outbound transport of `send_to_node` is a function parameter, and the
  embedding additionally returns the list of outbound calls the handler
  issued, so that claims about call attempts are statable.
- Handlers taking `&self` are embedded as pure functions, handlers taking
  `&mut self` return the new state; homepage registration and terminal
  logging are outside the state and are not modelled.
-/

/-- The modulus of `u32` arithmetic. -/
def u32Mod : Nat := 4294967296

/-- JSON whitespace, as accepted by serde_json around a top-level value. -/
def isJsonWs (c : Char) : Bool :=
  c.toNat = 32 || c.toNat = 9 || c.toNat = 10 || c.toNat = 13

/-- Drop JSON whitespace from both ends of a character list. -/
def trimWs (l : List Char) : List Char :=
  ((l.dropWhile isJsonWs).reverse.dropWhile isJsonWs).reverse

/-- ASCII decimal digit test. -/
def isDigitChar (c : Char) : Bool :=
  48 ≤ c.toNat && c.toNat ≤ 57

/-- Value of a decimal digit string. -/
def digitsToNat (l : List Char) : Nat :=
  l.foldl (fun acc c => acc * 10 + (c.toNat - 48)) 0

/-- A decimal literal has no leading zero (a lone zero is allowed). -/
def noLeadingZero : List Char → Bool
  | [] => false
  | c :: rest => if c.toNat = 48 then rest.isEmpty else true

/-- Model of `serde_json::from_str::<u32>`: trims surrounding whitespace and
accepts exactly the JSON unsigned-integer literals whose value fits in 32
bits; everything else (signs, fractions, exponents, leading zeros,
out-of-range values, non-numeric text) fails. -/
def parseJsonU32 (s : String) : Option Nat :=
  let t := trimWs s.data
  if t ≠ [] ∧ t.all isDigitChar ∧ noLeadingZero t ∧ digitsToNat t < u32Mod then
    some (digitsToNat t)
  else
    none

/-- Lowercase hexadecimal digit character for a value below 16. -/
def hexDigit (n : Nat) : Char :=
  if n < 10 then Char.ofNat (48 + n) else Char.ofNat (87 + n)

/-- Numeric value of a hexadecimal digit character. -/
def hexVal (c : Char) : Option Nat :=
  if 48 ≤ c.toNat ∧ c.toNat ≤ 57 then some (c.toNat - 48)
  else if 97 ≤ c.toNat ∧ c.toNat ≤ 102 then some (c.toNat - 87)
  else if 65 ≤ c.toNat ∧ c.toNat ≤ 70 then some (c.toNat - 55)
  else none

/-- serde_json escaping of one character inside a JSON string: quote and
backslash are escaped, control characters below 0x20 use the short escapes
where available and `\u00XX` otherwise, everything else is emitted raw. -/
def escapeChar (c : Char) : List Char :=
  if c.toNat = 34 then [Char.ofNat 92, Char.ofNat 34]
  else if c.toNat = 92 then [Char.ofNat 92, Char.ofNat 92]
  else if c.toNat = 8 then [Char.ofNat 92, Char.ofNat 98]
  else if c.toNat = 9 then [Char.ofNat 92, Char.ofNat 116]
  else if c.toNat = 10 then [Char.ofNat 92, Char.ofNat 110]
  else if c.toNat = 12 then [Char.ofNat 92, Char.ofNat 102]
  else if c.toNat = 13 then [Char.ofNat 92, Char.ofNat 114]
  else if c.toNat < 32 then
    [Char.ofNat 92, Char.ofNat 117, Char.ofNat 48, Char.ofNat 48,
     hexDigit (c.toNat / 16), hexDigit (c.toNat % 16)]
  else [c]

/-- serde_json escaping of a whole string body. -/
def escapeString : List Char → List Char
  | [] => []
  | c :: s => escapeChar c ++ escapeString s

/-- serde_json serialization of a string value, quotes included. -/
def encodeChars (m : List Char) : List Char :=
  Char.ofNat 34 :: escapeString m ++ [Char.ofNat 34]

/-- serde_json serialization of a string value, as a `String`. -/
def encodeJsonString (s : String) : String :=
  ⟨encodeChars s.data⟩

/-- Decoding of a single-character JSON escape. -/
def unescapeChar (e : Char) : Option Char :=
  if e.toNat = 34 then some (Char.ofNat 34)
  else if e.toNat = 92 then some (Char.ofNat 92)
  else if e.toNat = 47 then some (Char.ofNat 47)
  else if e.toNat = 98 then some (Char.ofNat 8)
  else if e.toNat = 102 then some (Char.ofNat 12)
  else if e.toNat = 110 then some (Char.ofNat 10)
  else if e.toNat = 114 then some (Char.ofNat 13)
  else if e.toNat = 116 then some (Char.ofNat 9)
  else none

/-- Parser for the body of a JSON string (the part after the opening quote):
returns the decoded characters and the input remaining after the closing
quote. Handles the simple escapes and non-surrogate `\uXXXX`; rejects raw
control characters, as JSON does. -/
def parseJsonStringBody : List Char → Option (List Char × List Char)
  | [] => none
  | c :: rest =>
    if c.toNat = 34 then some ([], rest)
    else if c.toNat = 92 then
      match rest with
      | [] => none
      | e :: rest2 =>
        if e.toNat = 117 then
          match rest2 with
          | h1 :: h2 :: h3 :: h4 :: rest6 =>
            match hexVal h1, hexVal h2, hexVal h3, hexVal h4 with
            | some a, some b, some c2, some d =>
              let n := ((a * 16 + b) * 16 + c2) * 16 + d
              if n < 55296 ∨ 57343 < n then
                match parseJsonStringBody rest6 with
                | some (s, r) => some (Char.ofNat n :: s, r)
                | none => none
              else none
            | _, _, _, _ => none
          | _ => none
        else
          match unescapeChar e with
          | some u =>
            match parseJsonStringBody rest2 with
            | some (s, r) => some (u :: s, r)
            | none => none
          | none => none
    else if c.toNat < 32 then none
    else
      match parseJsonStringBody rest with
      | some (s, r) => some (c :: s, r)
      | none => none

/-- serde_json serialization of the items of an array of strings,
comma-separated, without the surrounding brackets. -/
def serializeItems : List (List Char) → List Char
  | [] => []
  | [m] => encodeChars m
  | m :: m2 :: ms => encodeChars m ++ Char.ofNat 44 :: serializeItems (m2 :: ms)

/-- serde_json serialization of an array of strings (compact form). -/
def serializeArray (l : List (List Char)) : List Char :=
  Char.ofNat 91 :: serializeItems l ++ [Char.ofNat 93]

/-- Model of `serde_json::to_string(&Vec<String>)` (which never fails, so the
`unwrap_or_else` fallback of `get_messages` is dead code). -/
def serializeStringList (msgs : List String) : String :=
  ⟨serializeArray (msgs.map String.data)⟩

/-- Parser for the items of a JSON array of strings, positioned after the
opening bracket of a non-empty array; consumes the closing bracket. Fueled
by an upper bound on the number of items. -/
def parseItems : Nat → List Char → Option (List (List Char) × List Char)
  | 0, _ => none
  | _ + 1, [] => none
  | fuel + 1, c :: rest =>
    if c.toNat = 34 then
      match parseJsonStringBody rest with
      | some (item, r) =>
        match r with
        | [] => none
        | d :: r2 =>
          if d.toNat = 44 then
            match parseItems fuel r2 with
            | some (items, r3) => some (item :: items, r3)
            | none => none
          else if d.toNat = 93 then some ([item], r2)
          else none
      | none => none
    else none

/-- Parser for a complete compact JSON array of strings. -/
def parseStringArray (s : List Char) : Option (List (List Char)) :=
  match s with
  | [] => none
  | c :: rest =>
    if c.toNat = 91 then
      match rest with
      | [] => none
      | d :: rest2 =>
        if d.toNat = 93 then (if rest2.isEmpty then some [] else none)
        else
          match parseItems rest.length rest with
          | some (items, r) => if r.isEmpty then some items else none
          | none => none
    else none

/-- Parse a JSON array of strings back into a list of `String`s. -/
def parseMessages (s : String) : Option (List String) :=
  (parseStringArray s.data).map (fun l => l.map (fun cs => String.mk cs))

/-- The persistent application state (`AppState` in lib.rs): a `u32` counter
and an ordered message log. -/
structure AppState where
  counter : Nat
  messages : List String
deriving DecidableEq, Repr

/-- The `Default` state: zero counter, empty log. -/
def defaultAppState : AppState := { counter := 0, messages := [] }

/-- The `initialize` handler: sets the counter to zero and appends the
initialization entry to the log (source name: the init handler). Homepage registration and the identity
log line have no effect on `AppState` and are not modelled. -/
def initApp (st : AppState) : AppState :=
  { counter := 0, messages := st.messages ++ ["App initialized!"] }

/-- Body of the JSON object produced by `get_status`: the `json!` map is a
`BTreeMap`, so keys appear sorted (`counter`, `message_count`, `node`) and
`to_string` emits the compact form. -/
def statusJson (counter msgCount : Nat) (node : String) : String :=
  "\x7b\"counter\":" ++ Nat.repr counter ++
    ",\"message_count\":" ++ Nat.repr msgCount ++
    ",\"node\":" ++ encodeJsonString node ++ "\x7d"

/-- The `get_status` handler (`&self`, so pure): reports the counter, the
message count and the node identity; the request body is ignored. -/
def getStatus (st : AppState) (node : String) (_requestBody : String) : String :=
  statusJson st.counter st.messages.length node

/-- The `increment_counter` handler: parses the body as a `u32`, defaulting
to 1 on parse failure, adds it to the counter (wrapping `u32` addition),
appends one log entry, and returns `Ok` of the new counter. -/
def incrementCounter (st : AppState) (requestBody : String) :
    AppState × Except String Nat :=
  let amount : Nat :=
    match parseJsonU32 requestBody with
    | some val => val
    | none => 1
  let newCounter := (st.counter + amount) % u32Mod
  ({ counter := newCounter,
     messages := st.messages ++ ["Counter incremented by " ++ Nat.repr amount] },
   Except.ok newCounter)

/-- The parsed-or-defaulted increment amount of one request body. -/
def incAmount (requestBody : String) : Nat :=
  match parseJsonU32 requestBody with
  | some val => val
  | none => 1

/-- The `get_messages` handler (`&self`, so pure): serializes the full log
to a JSON array string; the request body is ignored. -/
def getMessages (st : AppState) (_requestBody : String) : String :=
  serializeStringList st.messages

/-- The `handle_remote_message` handler: appends one log entry with the
`Remote message: ` prefix and returns the fixed acknowledgment. -/
def handleRemoteMessage (st : AppState) (message : String) :
    AppState × Except String String :=
  ({ st with messages := st.messages ++ ["Remote message: " ++ message] },
   Except.ok "Message received")

/-- The request payload of `send_to_node` (struct `SendRequest` in lib.rs). -/
structure SendRequest where
  target_node : String
  message : String
deriving DecidableEq, Repr

/-- A three-part process identifier. -/
structure ProcessId where
  processName : String
  packageName : String
  publisher : String
deriving DecidableEq, Repr

/-- A full remote address: node plus process identifier. -/
structure Address where
  node : String
  process : ProcessId
deriving DecidableEq, Repr

/-- An outbound request as issued by `send_to_node`: target address, JSON
payload, and response timeout in seconds. -/
structure OutboundCall where
  target : Address
  payload : String
  timeout : Nat
deriving DecidableEq, Repr

/-- Split a character list at colons. -/
def splitColon : List Char → List (List Char)
  | [] => [[]]
  | c :: rest =>
    if c.toNat = 58 then [] :: splitColon rest
    else
      match splitColon rest with
      | [] => [[c]]
      | g :: gs => (c :: g) :: gs

/-- Model of `str::parse::<ProcessId>`: three non-empty colon-separated
parts. -/
def parseProcessId (s : String) : Except String ProcessId :=
  match splitColon s.data with
  | [a, b, c] =>
    if a ≠ [] ∧ b ≠ [] ∧ c ≠ [] then Except.ok ⟨⟨a⟩, ⟨b⟩, ⟨c⟩⟩
    else Except.error "invalid process id"
  | _ => Except.error "invalid process id"

/-- Parse one `"key":"value"` member of a compact JSON object; returns the
key, the value and the remaining input. -/
def parseMember (s : List Char) : Option ((List Char × List Char) × List Char) :=
  match s with
  | [] => none
  | c :: s1 =>
    if c.toNat = 34 then
      match parseJsonStringBody s1 with
      | some (key, r1) =>
        match r1 with
        | [] => none
        | d :: r2 =>
          if d.toNat = 58 then
            match r2 with
            | [] => none
            | q :: r3 =>
              if q.toNat = 34 then
                match parseJsonStringBody r3 with
                | some (v, r4) => some ((key, v), r4)
                | none => none
              else none
          else none
      | none => none
    else none

/-- Parse the members of a non-empty compact JSON object, positioned after
the opening brace; consumes the closing brace. -/
def parseObjMembers : Nat → List Char → Option (List (List Char × List Char) × List Char)
  | 0, _ => none
  | fuel + 1, s =>
    match parseMember s with
    | some (kv, r) =>
      match r with
      | [] => none
      | d :: r2 =>
        if d.toNat = 44 then
          match parseObjMembers fuel r2 with
          | some (kvs, r3) => some (kv :: kvs, r3)
          | none => none
        else if d.toNat = 125 then some ([kv], r2)
        else none
    | none => none

/-- Parse a complete compact JSON object with string keys and string
values, as a key-value list. -/
def parseObject (s : List Char) : Option (List (String × String)) :=
  match s with
  | [] => none
  | c :: rest =>
    if c.toNat = 123 then
      match rest with
      | [] => none
      | d :: rest2 =>
        if d.toNat = 125 then (if rest2.isEmpty then some [] else none)
        else
          match parseObjMembers rest.length rest with
          | some (kvs, r) =>
            if r.isEmpty then
              some (kvs.map (fun kv => (String.mk kv.1, String.mk kv.2)))
            else none
          | none => none
    else none

/-- Model of `serde_json::from_str::<SendRequest>` on compact JSON objects
with string fields; diagnostics are abbreviated to serde's leading phrase. -/
def parseSendRequest (body : String) : Except String SendRequest :=
  match parseObject body.data with
  | none => Except.error "expected struct SendRequest"
  | some kvs =>
    match kvs.lookup "target_node", kvs.lookup "message" with
    | some t, some m => Except.ok ⟨t, m⟩
    | none, _ => Except.error "missing field target_node"
    | some _, none => Except.error "missing field message"

/-- The hardcoded target process identifier string of `send_to_node`. -/
def skeletonProcessIdStr : String := "skeleton-app:skeleton-app:skeleton.os"

/-- The outbound call that `send_to_node` issues for a parsed request:
the caller-supplied target node, the hardcoded process identifier, the
`HandleRemoteMessage` JSON envelope, and the 30-second timeout. -/
def mkOutboundCall (req : SendRequest) : OutboundCall :=
  { target := { node := req.target_node,
                process := ⟨"skeleton-app", "skeleton-app", "skeleton.os"⟩ },
    payload := "\x7b\"HandleRemoteMessage\":" ++ encodeJsonString req.message ++ "\x7d",
    timeout := 30 }

/-- The `send_to_node` handler. The transport (`Request::send_and_await_response`)
is a parameter; the result is the new state, the handler result, and the
list of outbound calls issued. The peer response payload is matched as
`Ok(_)` and discarded. -/
def sendToNode (st : AppState) (requestBody : String)
    (transport : OutboundCall → Except String String) :
    AppState × Except String String × List OutboundCall :=
  match parseSendRequest requestBody with
  | Except.error e => (st, Except.error ("Invalid request: " ++ e), [])
  | Except.ok req =>
    match parseProcessId skeletonProcessIdStr with
    | Except.error e => (st, Except.error ("Invalid process ID: " ++ e), [])
    | Except.ok pid =>
      let call : OutboundCall :=
        { target := { node := req.target_node, process := pid },
          payload := "\x7b\"HandleRemoteMessage\":" ++ encodeJsonString req.message ++ "\x7d",
          timeout := 30 }
      match transport call with
      | Except.ok _ => (st, Except.ok "Message sent successfully", [call])
      | Except.error e => (st, Except.error ("Failed to send message: " ++ e), [call])

/-- Fold a list of `increment_counter` request bodies over a state. -/
def applyIncrements (st : AppState) (bodies : List String) : AppState :=
  bodies.foldl (fun s b => (incrementCounter s b).1) st

/-- One invocation of any of the five dispatchable handlers. -/
inductive Op where
  | status (body : String)
  | increment (body : String)
  | messagesOp (body : String)
  | remote (msg : String)
  | send (body : String) (transport : OutboundCall → Except String String)

/-- The observable output of one handler invocation. -/
inductive Output where
  | text (s : String)
  | resNat (r : Except String Nat)
  | resText (r : Except String String)

/-- Dispatch one operation against the state, as the framework does. -/
def runOp (node : String) (st : AppState) : Op → AppState × Output
  | Op.status body => (st, Output.text (getStatus st node body))
  | Op.increment body =>
    let p := incrementCounter st body
    (p.1, Output.resNat p.2)
  | Op.messagesOp body => (st, Output.text (getMessages st body))
  | Op.remote msg =>
    let p := handleRemoteMessage st msg
    (p.1, Output.resText p.2)
  | Op.send body transport =>
    let p := sendToNode st body transport
    (p.1, Output.resText p.2.1)

/-! ## Helper lemmas -/

/-- Round-trip of one escaped character through the string parser. -/
theorem hexVal_hexDigit {n : Nat} (h : n < 16) : hexVal (hexDigit n) = some n := by
  interval_cases n <;> rfl

/-- Parsing inverts serde_json escaping of a single character. -/
theorem parse_escapeChar (c : Char) {rest s r : List Char}
    (h : parseJsonStringBody rest = some (s, r)) :
    parseJsonStringBody (escapeChar c ++ rest) = some (c :: s, r) := by
  by_cases h34 : c.toNat = 34
  · have hc : c = Char.ofNat 34 := by rw [← h34, Char.ofNat_toNat]
    subst hc
    rw [show escapeChar (Char.ofNat 34) = [Char.ofNat 92, Char.ofNat 34] from rfl]
    rw [parseJsonStringBody.eq_def]
    simp [unescapeChar, h]
  by_cases h92 : c.toNat = 92
  · have hc : c = Char.ofNat 92 := by rw [← h92, Char.ofNat_toNat]
    subst hc
    rw [show escapeChar (Char.ofNat 92) = [Char.ofNat 92, Char.ofNat 92] from rfl]
    rw [parseJsonStringBody.eq_def]
    simp [unescapeChar, h]
  by_cases h8 : c.toNat = 8
  · have hc : c = Char.ofNat 8 := by rw [← h8, Char.ofNat_toNat]
    subst hc
    rw [show escapeChar (Char.ofNat 8) = [Char.ofNat 92, Char.ofNat 98] from rfl]
    rw [parseJsonStringBody.eq_def]
    simp [unescapeChar, h]
  by_cases h9 : c.toNat = 9
  · have hc : c = Char.ofNat 9 := by rw [← h9, Char.ofNat_toNat]
    subst hc
    rw [show escapeChar (Char.ofNat 9) = [Char.ofNat 92, Char.ofNat 116] from rfl]
    rw [parseJsonStringBody.eq_def]
    simp [unescapeChar, h]
  by_cases h10 : c.toNat = 10
  · have hc : c = Char.ofNat 10 := by rw [← h10, Char.ofNat_toNat]
    subst hc
    rw [show escapeChar (Char.ofNat 10) = [Char.ofNat 92, Char.ofNat 110] from rfl]
    rw [parseJsonStringBody.eq_def]
    simp [unescapeChar, h]
  by_cases h12 : c.toNat = 12
  · have hc : c = Char.ofNat 12 := by rw [← h12, Char.ofNat_toNat]
    subst hc
    rw [show escapeChar (Char.ofNat 12) = [Char.ofNat 92, Char.ofNat 102] from rfl]
    rw [parseJsonStringBody.eq_def]
    simp [unescapeChar, h]
  by_cases h13 : c.toNat = 13
  · have hc : c = Char.ofNat 13 := by rw [← h13, Char.ofNat_toNat]
    subst hc
    rw [show escapeChar (Char.ofNat 13) = [Char.ofNat 92, Char.ofNat 114] from rfl]
    rw [parseJsonStringBody.eq_def]
    simp [unescapeChar, h]
  by_cases hlt : c.toNat < 32
  · have hesc : escapeChar c =
        [Char.ofNat 92, Char.ofNat 117, Char.ofNat 48, Char.ofNat 48,
         hexDigit (c.toNat / 16), hexDigit (c.toNat % 16)] := by
      unfold escapeChar
      rw [if_neg h34, if_neg h92, if_neg h8, if_neg h9, if_neg h10, if_neg h12,
          if_neg h13, if_pos hlt]
    rw [hesc]
    have hhi : hexVal (hexDigit (c.toNat / 16)) = some (c.toNat / 16) :=
      hexVal_hexDigit (by omega)
    have hlo : hexVal (hexDigit (c.toNat % 16)) = some (c.toNat % 16) :=
      hexVal_hexDigit (by omega)
    have hlt2 : c.toNat < 55296 := by omega
    have h48 : hexVal (Char.ofNat 48) = some 0 := rfl
    rw [parseJsonStringBody.eq_def]
    simp [h48, hhi, hlo, h]
    have hn2 : c.toNat / 16 * 16 + c.toNat % 16 = c.toNat := by omega
    rw [hn2]
    exact ⟨Or.inl hlt2, Char.ofNat_toNat c⟩
  · have hesc : escapeChar c = [c] := by
      unfold escapeChar
      rw [if_neg h34, if_neg h92, if_neg h8, if_neg h9, if_neg h10, if_neg h12,
          if_neg h13, if_neg hlt]
    rw [hesc]
    rw [parseJsonStringBody.eq_def]
    simp [h34, h92, hlt, h]

/-- Parsing inverts serde_json escaping of a whole string body. -/
theorem parse_escapeString (m : List Char) (rest : List Char) :
    parseJsonStringBody (escapeString m ++ Char.ofNat 34 :: rest) = some (m, rest) := by
  induction m with
  | nil =>
    rw [show escapeString [] ++ Char.ofNat 34 :: rest = Char.ofNat 34 :: rest from rfl]
    rw [parseJsonStringBody.eq_def]
    simp
  | cons c m ih =>
    rw [show escapeString (c :: m) = escapeChar c ++ escapeString m from rfl,
        List.append_assoc]
    exact parse_escapeChar c ih

/-- A serialized non-empty item list starts with a quote. -/
theorem serializeItems_cons_head (m : List Char) (tail : List (List Char)) :
    ∃ t, serializeItems (m :: tail) = Char.ofNat 34 :: t := by
  cases tail with
  | nil => exact ⟨_, rfl⟩
  | cons m2 ms => exact ⟨_, rfl⟩

/-- Serialization produces at least one character per item. -/
theorem serializeItems_length_le :
    ∀ msgs : List (List Char), msgs ≠ [] → msgs.length ≤ (serializeItems msgs).length := by
  intro msgs
  induction msgs with
  | nil => intro h; exact absurd rfl h
  | cons m tail ih =>
    intro _
    cases tail with
    | nil => simp [serializeItems, encodeChars]
    | cons m2 ms =>
      have h2 := ih (by simp)
      simp [serializeItems, encodeChars] at *
      omega

/-- Parsing inverts serialization of the items of a non-empty array. -/
theorem parse_serializeItems :
    ∀ (msgs : List (List Char)) (fuel : Nat) (rest : List Char),
      msgs ≠ [] → msgs.length ≤ fuel →
      parseItems fuel (serializeItems msgs ++ Char.ofNat 93 :: rest) = some (msgs, rest) := by
  intro msgs
  induction msgs with
  | nil => intro fuel rest h; exact absurd rfl h
  | cons m tail ih =>
    intro fuel rest _ hlen
    cases fuel with
    | zero => simp at hlen
    | succ f =>
      cases tail with
      | nil =>
        have hform : serializeItems [m] ++ Char.ofNat 93 :: rest
            = Char.ofNat 34 :: (escapeString m ++ Char.ofNat 34 :: (Char.ofNat 93 :: rest)) := by
          simp [serializeItems, encodeChars]
        rw [hform, parseItems.eq_def]
        simp [parse_escapeString m (Char.ofNat 93 :: rest)]
      | cons m2 ms =>
        have hform : serializeItems (m :: m2 :: ms) ++ Char.ofNat 93 :: rest
            = Char.ofNat 34 :: (escapeString m ++ Char.ofNat 34 ::
                (Char.ofNat 44 :: (serializeItems (m2 :: ms) ++ Char.ofNat 93 :: rest))) := by
          simp [serializeItems, encodeChars]
        rw [hform, parseItems.eq_def]
        have hrec := ih f rest (by simp) (by simp at hlen ⊢; omega)
        simp [parse_escapeString m
          (Char.ofNat 44 :: (serializeItems (m2 :: ms) ++ Char.ofNat 93 :: rest)), hrec]

/-- Parsing inverts serialization of a complete array of strings. -/
theorem parse_serializeArray (msgs : List (List Char)) :
    parseStringArray (serializeArray msgs) = some msgs := by
  cases msgs with
  | nil => rfl
  | cons m tail =>
    obtain ⟨t, ht⟩ := serializeItems_cons_head m tail
    have harr : serializeArray (m :: tail)
        = Char.ofNat 91 :: Char.ofNat 34 :: (t ++ [Char.ofNat 93]) := by
      simp [serializeArray, ht]
    have hback : Char.ofNat 34 :: (t ++ [Char.ofNat 93])
        = serializeItems (m :: tail) ++ Char.ofNat 93 :: [] := by
      simp [ht]
    have hlen : (m :: tail).length ≤ (Char.ofNat 34 :: (t ++ [Char.ofNat 93])).length := by
      have h1 := serializeItems_length_le (m :: tail) (by simp)
      rw [hback]
      simp at h1 ⊢
      omega
    rw [harr, parseStringArray.eq_def]
    simp only [show ((Char.ofNat 91).toNat = 91) from rfl,
      show ((Char.ofNat 34).toNat = 34) from rfl]
    rw [if_pos trivial, if_neg (by decide : ¬((34 : Nat) = 93))]
    rw [hback] at hlen ⊢
    rw [parse_serializeItems (m :: tail) _ [] (by simp) hlen]
    simp

/-- One-step characterization of `increment_counter`. -/
theorem incrementCounter_eq (st : AppState) (body : String) :
    incrementCounter st body =
      ({ counter := (st.counter + incAmount body) % u32Mod,
         messages := st.messages ++ ["Counter incremented by " ++ Nat.repr (incAmount body)] },
       Except.ok ((st.counter + incAmount body) % u32Mod)) := rfl

/-- The `u32` modulus is positive. -/
theorem u32Mod_pos : 0 < u32Mod := by decide

/-- Unfolding one step of a fold of increments. -/
theorem applyIncrements_cons (st : AppState) (b : String) (bs : List String) :
    applyIncrements st (b :: bs) = applyIncrements (incrementCounter st b).1 bs := rfl

/-- The counter after a sequence of increments is the wrapped sum. -/
theorem applyIncrements_counter (bodies : List String) :
    ∀ st : AppState, st.counter < u32Mod →
      (applyIncrements st bodies).counter
        = (st.counter + (bodies.map incAmount).sum) % u32Mod := by
  induction bodies with
  | nil => intro st h; simp [applyIncrements, Nat.mod_eq_of_lt h]
  | cons b bs ih =>
    intro st h
    have h2 : (incrementCounter st b).1.counter < u32Mod := by
      rw [incrementCounter_eq]
      exact Nat.mod_lt _ u32Mod_pos
    rw [applyIncrements_cons, ih _ h2, incrementCounter_eq]
    simp only [List.map_cons, List.sum_cons]
    rw [Nat.mod_add_mod, Nat.add_assoc]

/-- Each increment appends exactly one log entry. -/
theorem applyIncrements_length (bodies : List String) :
    ∀ st : AppState,
      (applyIncrements st bodies).messages.length
        = st.messages.length + bodies.length := by
  induction bodies with
  | nil => intro st; simp [applyIncrements]
  | cons b bs ih =>
    intro st
    rw [applyIncrements_cons, ih, incrementCounter_eq]
    simp
    omega

/-- `send_to_node` returns its input state in every branch. -/
theorem sendToNode_state_unchanged (st : AppState) (body : String)
    (transport : OutboundCall → Except String String) :
    (sendToNode st body transport).1 = st := by
  unfold sendToNode
  split
  · rfl
  · split
    · rfl
    · dsimp only
      split <;> rfl

/-- Characterization of `send_to_node` on a body that parses: the handler
issues exactly the one outbound call and maps its outcome. -/
theorem sendToNode_run (st : AppState) (body : String) (req : SendRequest)
    (transport : OutboundCall → Except String String)
    (hparse : parseSendRequest body = Except.ok req) :
    sendToNode st body transport =
      (match transport (mkOutboundCall req) with
       | Except.ok _ => (st, Except.ok "Message sent successfully", [mkOutboundCall req])
       | Except.error e =>
         (st, Except.error ("Failed to send message: " ++ e), [mkOutboundCall req])) := by
  unfold sendToNode
  rw [hparse]
  rfl

/-! ## Claim theorems -/

/-- Claim C1 (counterexample): as stated, the claim fails at a state whose
counter is at the `u32` maximum: the body `1` parses as 1, yet the counter
becomes 0, not the old counter plus 1, because `u32` addition wraps. -/
theorem increment_counter_overflow_counterexample :
    parseJsonU32 "1" = some 1 ∧
    (incrementCounter { counter := 4294967295, messages := [] } "1").1.counter = 0 ∧
    (incrementCounter { counter := 4294967295, messages := [] } "1").1.counter
      ≠ 4294967295 + 1 := by
  refine ⟨rfl, rfl, ?_⟩
  decide

/-- Claim C1 (amended): for every valid unsigned integer `n`, calling
`increment_counter` with a body that parses as `n` increases the counter by
exactly `n` — provided the 32-bit addition does not overflow — appends
exactly one log entry, and returns `Ok` of the new counter. -/
theorem increment_counter_adds_parsed_amount (st : AppState) (body : String) (n : Nat)
    (hp : parseJsonU32 body = some n) (hof : st.counter + n < u32Mod) :
    (incrementCounter st body).1.counter = st.counter + n ∧
    (incrementCounter st body).1.messages
        = st.messages ++ ["Counter incremented by " ++ Nat.repr n] ∧
    (incrementCounter st body).2 = Except.ok (st.counter + n) := by
  have ha : incAmount body = n := by simp [incAmount, hp]
  rw [incrementCounter_eq]
  simp [ha, Nat.mod_eq_of_lt hof]

/-- Claim C1 (witness): the amended theorem applied at the default state
with body `5`. -/
theorem increment_counter_adds_parsed_amount_witness :
    parseJsonU32 "5" = some 5 ∧
    (incrementCounter defaultAppState "5").1.counter = 0 + 5 ∧
    (incrementCounter defaultAppState "5").1.messages
        = [] ++ ["Counter incremented by " ++ Nat.repr 5] ∧
    (incrementCounter defaultAppState "5").2 = Except.ok (0 + 5) :=
  ⟨rfl, increment_counter_adds_parsed_amount defaultAppState "5" 5 rfl (by decide)⟩

/-- Claim C2 (counterexample): as stated, the claim fails at a state whose
counter is at the `u32` maximum: a non-numeric body defaults the amount to
1, yet the counter becomes 0, not the old counter plus 1, because `u32`
addition wraps. -/
theorem increment_counter_default_overflow_counterexample :
    parseJsonU32 "not a number" = none ∧
    (incrementCounter { counter := 4294967295, messages := [] } "not a number").1.counter
      = 0 ∧
    (incrementCounter { counter := 4294967295, messages := [] } "not a number").1.counter
      ≠ 4294967295 + 1 := by
  refine ⟨rfl, rfl, ?_⟩
  decide

/-- Claim C2 (amended): for every body that does not parse as an unsigned
integer, `increment_counter` increases the counter by exactly the default
amount 1 — provided the 32-bit addition does not overflow — appends exactly
one log entry, and surfaces no error (it returns `Ok` of the new counter). -/
theorem increment_counter_defaults_to_one (st : AppState) (body : String)
    (hp : parseJsonU32 body = none) (hof : st.counter + 1 < u32Mod) :
    (incrementCounter st body).1.counter = st.counter + 1 ∧
    (incrementCounter st body).1.messages
        = st.messages ++ ["Counter incremented by 1"] ∧
    (incrementCounter st body).2 = Except.ok (st.counter + 1) := by
  have ha : incAmount body = 1 := by simp [incAmount, hp]
  rw [incrementCounter_eq]
  simp [ha, Nat.mod_eq_of_lt hof]
  rfl

/-- Claim C2 (witness): the amended theorem applied at the default state
with a non-numeric body. -/
theorem increment_counter_defaults_to_one_witness :
    parseJsonU32 "not a number" = none ∧
    (incrementCounter defaultAppState "not a number").1.counter = 0 + 1 ∧
    (incrementCounter defaultAppState "not a number").1.messages
        = [] ++ ["Counter incremented by 1"] ∧
    (incrementCounter defaultAppState "not a number").2 = Except.ok (0 + 1) :=
  ⟨rfl, increment_counter_defaults_to_one defaultAppState "not a number" rfl (by decide)⟩

/-- Claim C3 (counterexample): as stated, the claim fails when the parsed
amounts total at least `2 ^ 32`: two increments of `2147483648` total
`4294967296`, but `get_status` then reports counter 0, not `T`. -/
theorem get_status_overflow_counterexample :
    ((["2147483648", "2147483648"] : List String).map incAmount).sum = 4294967296 ∧
    getStatus (applyIncrements (initApp defaultAppState) ["2147483648", "2147483648"])
        "alice.os" ""
      ≠ statusJson 4294967296 3 "alice.os" := by
  constructor
  · rfl
  · decide

/-- Claim C3 (amended): starting from the default state, after `initialize`
and any sequence of `k` `increment_counter` calls whose parsed (or
defaulted) amounts total `T`, `get_status` reports counter `T mod 2 ^ 32`
and message count `k + 1` (the `+1` being the initialization entry); with
no increments it reports counter 0 and message count 1. `get_status` is
embedded as a pure function of the state, so it performs no mutation. -/
theorem get_status_after_increments (bodies : List String) (node rbody : String) :
    getStatus (applyIncrements (initApp defaultAppState) bodies) node rbody
      = statusJson ((bodies.map incAmount).sum % u32Mod) (bodies.length + 1) node := by
  have hc := applyIncrements_counter bodies (initApp defaultAppState) (by decide)
  have hl := applyIncrements_length bodies (initApp defaultAppState)
  unfold getStatus
  rw [hc, hl]
  rw [show (initApp defaultAppState).counter = 0 from rfl]
  rw [show (initApp defaultAppState).messages.length = 1 from rfl]
  rw [Nat.zero_add, Nat.add_comm 1 bodies.length]

/-- Claim C4: for every state and request body, the string returned by
`get_messages`, parsed back as a JSON array of strings, is exactly the
ordered message log; `get_messages` is embedded as a pure function of the
state, so it performs no mutation. -/
theorem get_messages_roundtrip (st : AppState) (body : String) :
    parseMessages (getMessages st body) = some st.messages := by
  simp [parseMessages, getMessages, serializeStringList, parse_serializeArray,
    List.map_map]
  rw [show ((fun cs => String.mk cs) ∘ String.data) = id from rfl, List.map_id]

/-- Claim C5: for every state and message `X`, `handle_remote_message`
appends exactly one log entry, namely `X` prefixed with `Remote message: `
(so the entry contains `X`), leaves the counter unchanged, and returns the
fixed acknowledgment `Ok("Message received")` — never the error variant. -/
theorem handle_remote_message_spec (st : AppState) (msg : String) :
    (handleRemoteMessage st msg).1.messages
        = st.messages ++ ["Remote message: " ++ msg] ∧
    (handleRemoteMessage st msg).1.counter = st.counter ∧
    (handleRemoteMessage st msg).2 = Except.ok "Message received" ∧
    msg.data <:+ ("Remote message: " ++ msg).data := by
  refine ⟨rfl, rfl, rfl, ?_⟩
  rw [String.data_append]
  exact List.suffix_append _ _

/-- Claim C6: for every request body that fails to parse as a
`SendRequest` (for example one missing `target_node` or `message`),
`send_to_node` returns an error describing the parse problem, leaves the
state unchanged, and issues no outbound call. -/
theorem send_to_node_parse_failure (st : AppState) (body : String) (e : String)
    (transport : OutboundCall → Except String String)
    (h : parseSendRequest body = Except.error e) :
    sendToNode st body transport
      = (st, Except.error ("Invalid request: " ++ e), []) := by
  unfold sendToNode
  rw [h]

/-- Claim C6 (witness): the theorem applied to the empty JSON object body,
which is missing both fields. -/
theorem send_to_node_parse_failure_witness :
    sendToNode defaultAppState "\x7b\x7d" (fun _ => Except.ok "peer response")
      = (defaultAppState,
         Except.error ("Invalid request: " ++ "missing field target_node"), []) :=
  send_to_node_parse_failure defaultAppState "\x7b\x7d" "missing field target_node"
    (fun _ => Except.ok "peer response") rfl

/-- Claim C7: for every body that parses as a `SendRequest`, if the
transport call succeeds `send_to_node` returns the fixed confirmation
string regardless of the response payload (the payload is discarded), and
if the transport call fails it returns an error carrying the diagnostic
description; in both cases exactly the one outbound call was issued. -/
theorem send_to_node_transport_outcomes (st : AppState) (body : String)
    (req : SendRequest) (transport : OutboundCall → Except String String)
    (hparse : parseSendRequest body = Except.ok req) :
    (∀ r, transport (mkOutboundCall req) = Except.ok r →
        sendToNode st body transport
          = (st, Except.ok "Message sent successfully", [mkOutboundCall req])) ∧
    (∀ e, transport (mkOutboundCall req) = Except.error e →
        sendToNode st body transport
          = (st, Except.error ("Failed to send message: " ++ e), [mkOutboundCall req])) := by
  have hrun := sendToNode_run st body req transport hparse
  constructor
  · intro r hr
    rw [hrun, hr]
  · intro e he
    rw [hrun, he]

/-- Claim C7 (witness): the theorem applied to a well-formed body with a
succeeding transport and with a failing transport. -/
theorem send_to_node_transport_outcomes_witness :
    sendToNode defaultAppState "\x7b\"target_node\":\"bob.os\",\"message\":\"hi\"\x7d"
        (fun _ => Except.ok "peer response")
      = (defaultAppState, Except.ok "Message sent successfully",
         [mkOutboundCall ⟨"bob.os", "hi"⟩]) ∧
    sendToNode defaultAppState "\x7b\"target_node\":\"bob.os\",\"message\":\"hi\"\x7d"
        (fun _ => Except.error "timeout")
      = (defaultAppState, Except.error ("Failed to send message: " ++ "timeout"),
         [mkOutboundCall ⟨"bob.os", "hi"⟩]) :=
  ⟨(send_to_node_transport_outcomes defaultAppState
      "\x7b\"target_node\":\"bob.os\",\"message\":\"hi\"\x7d" ⟨"bob.os", "hi"⟩
      (fun _ => Except.ok "peer response") rfl).1 "peer response" rfl,
   (send_to_node_transport_outcomes defaultAppState
      "\x7b\"target_node\":\"bob.os\",\"message\":\"hi\"\x7d" ⟨"bob.os", "hi"⟩
      (fun _ => Except.error "timeout") rfl).2 "timeout" rfl⟩

/-- Claim C8: the message log is append-only across every dispatchable
handler: for each of `get_status`, `increment_counter`, `get_messages`,
`handle_remote_message` and `send_to_node`, the log before the call is a
prefix of the log after the call. -/
theorem messages_append_only (node : String) (st : AppState) (op : Op) :
    st.messages <+: (runOp node st op).1.messages := by
  cases op with
  | status body => exact List.prefix_refl _
  | increment body =>
    rw [show (runOp node st (Op.increment body)).1 = (incrementCounter st body).1 from rfl,
        incrementCounter_eq]
    exact List.prefix_append _ _
  | messagesOp body => exact List.prefix_refl _
  | remote msg => exact List.prefix_append _ _
  | send body t =>
    rw [show (runOp node st (Op.send body t)).1 = (sendToNode st body t).1 from rfl,
        sendToNode_state_unchanged]

/-- Claim C9: the counter update of `increment_counter` is wrapping 32-bit
addition: the new counter is the sum modulo `2 ^ 32`, and it equals the
plain sum exactly when no overflow occurs. -/
theorem increment_counter_wraps_mod_u32 (st : AppState) (body : String) (n : Nat)
    (hp : parseJsonU32 body = some n) :
    (incrementCounter st body).1.counter = (st.counter + n) % u32Mod ∧
    ((incrementCounter st body).1.counter = st.counter + n ↔ st.counter + n < u32Mod) := by
  have ha : incAmount body = n := by simp [incAmount, hp]
  constructor
  · rw [incrementCounter_eq]
    simp [ha]
  · rw [incrementCounter_eq]
    simp only [ha]
    exact Nat.mod_eq_iff_lt (by decide)

/-- Claim C9 (witness): the theorem applied at the maximal counter with
body `1`, where the sum wraps to 0. -/
theorem increment_counter_wraps_mod_u32_witness :
    (incrementCounter { counter := 4294967295, messages := [] } "1").1.counter
        = (4294967295 + 1) % u32Mod ∧
    ((incrementCounter { counter := 4294967295, messages := [] } "1").1.counter
        = 4294967295 + 1 ↔ 4294967295 + 1 < u32Mod) :=
  increment_counter_wraps_mod_u32 { counter := 4294967295, messages := [] } "1" 1 rfl

/-- Claim C10: `send_to_node` never mutates the local state: in every
branch (parse failure, transport success, transport failure) both the
counter and the message log are unchanged. -/
theorem send_to_node_no_state_mutation (st : AppState) (body : String)
    (transport : OutboundCall → Except String String) :
    (sendToNode st body transport).1.counter = st.counter ∧
    (sendToNode st body transport).1.messages = st.messages := by
  rw [sendToNode_state_unchanged]
  exact ⟨rfl, rfl⟩
